import Mathlib

/-!
# SmartMailer — verification of the processing pipeline

A shallow embedding of the SmartMailer repository's core logic
(`app/email_classifier.py`, `app/database.py`, `app/worker.py`,
`app/email_fetcher.py`, `app/email_sender.py`, `app/api.py`) together with
theorems settling the specification's testable properties.

Conventions of the embedding:
* Python strings are Lean `String`s; `a in b` (substring test), `s[:n]`
  (character slice), `s.lower()`, `s.startswith(p)` and `s.split(sep)` are
  embedded by the helper functions below, operating on the character list.
* The SQLAlchemy session is embedded as an explicit store `DB` holding the
  `emails` table, the `processing_logs` table and the autoincrement counter
  for the surrogate primary key `id`.
* Network and commit outcomes (SMTP send, Telegram push, database commit)
  are oracles supplied through an `Env` record; the fixed regular-expression
  searches of the classifier (`urgent_patterns` / `normal_patterns`,
  evaluated by `re.search`) are likewise abstracted as Boolean functions on
  the searched text, since no claim depends on their internals.
-/

/-- Embeds the Python prefix test underlying `a in b` and `s.startswith(p)`:
`strHeadMatch n h` is true iff `n` is an initial segment of `h`. -/
def strHeadMatch : List Char → List Char → Bool
  | [], _ => true
  | _ :: _, [] => false
  | a :: as, b :: bs => a == b && strHeadMatch as bs

/-- Searches `needle` at every position of the haystack (Python `in`). -/
def subSearch (needle : List Char) : List Char → Bool
  | [] => strHeadMatch needle []
  | h :: t => strHeadMatch needle (h :: t) || subSearch needle t

/-- Embeds Python `needle in hay` for strings. -/
def strContains (needle hay : String) : Bool :=
  subSearch needle.toList hay.toList

/-- Embeds Python `s.startswith(p)`. -/
def strStartsWith (s p : String) : Bool :=
  strHeadMatch p.toList s.toList

/-- Embeds the Python character slice `s[:n]`. -/
def strTake (s : String) (n : Nat) : String :=
  String.mk (s.toList.take n)

/-- Embeds Python `s.lower()` (ASCII case folding, as used by the rules). -/
def strLower (s : String) : String :=
  String.mk (s.toList.map Char.toLower)

/-- A fetched message as built by `EmailFetcher._parse_email`: the
`email_data` dictionary handed through the pipeline.  A key missing from the
dictionary reads as the empty string (`email_data.get(k, '')`). -/
structure EmailData where
  uid : String
  subject : String
  sender : String
  recipient : String
  date_received : Nat
  content : String
deriving Repr, DecidableEq

/-- The configuration and fixed-pattern surface consumed by
`EmailClassifier`: the three comma-parsed keyword lists of `app/config.py`
(already trimmed and lower-cased by the `parse_comma_separated` validator),
plus the two `re.search` matchers over the hard-coded `urgent_patterns` and
`normal_patterns` lists of `email_classifier.py`, abstracted as Boolean
functions of the searched text. -/
structure ClassifierCfg where
  important_keywords : List String
  important_senders : List String
  normal_keywords : List String
  urgentPattern : String → Bool
  normalPattern : String → Bool

/-- Embeds `EmailClassifier._is_important_email` (rules 1–4: important
sender substring, important keyword in subject, important keyword in the
first 500 characters of the body, urgency pattern). -/
def is_important_email (cfg : ClassifierCfg) (subject sender content : String) : Bool :=
  cfg.important_senders.any (fun s => strContains s sender) ||
  cfg.important_keywords.any (fun k => strContains k subject) ||
  cfg.important_keywords.any (fun k => strContains k (strTake content 500)) ||
  cfg.urgentPattern (subject ++ " " ++ strTake content 500)

/-- Embeds `EmailClassifier._is_normal_email` (rules 5–6: normal keyword in
subject or first 200 characters of body, newsletter/marketing pattern).  The
`sender` argument is accepted and unused exactly as in the source. -/
def is_normal_email (cfg : ClassifierCfg) (subject _sender content : String) : Bool :=
  cfg.normal_keywords.any (fun k => strContains k subject || strContains k (strTake content 200)) ||
  cfg.normalPattern (subject ++ " " ++ strTake content 200)

/-- Embeds Python `s.split(c)` for a one-character separator, on the
character list. -/
def splitOnChar (c : Char) : List Char → List (List Char)
  | [] => [[]]
  | a :: as =>
    let r := splitOnChar c as
    if a == c then [] :: r
    else
      match r with
      | [] => [[a]]
      | h :: t => (a :: h) :: t

/-- Embeds `EmailClassifier._classify_by_sender_domain` (rule 7): the text
after the first `@` (`sender.split('@')[1]`), lower-cased, matched against
the two hard-coded domain lists; default `'normal'`. -/
def classify_by_sender_domain (sender : String) : String :=
  if strContains "@" sender then
    match (splitOnChar '@' sender.toList).get? 1 with
    | some d =>
      let domain := strLower (String.mk d)
      if ["company.com", "entreprise.fr", "hr.com", "recruitment.com"].any
          (fun x => strContains x domain) then "important"
      else if ["newsletter.com", "marketing.com", "promo.com", "ads.com",
               "noreply.com", "no-reply.com"].any
          (fun x => strContains x domain) then "normal"
      else "normal"
    | none => "normal"
  else "normal"

/-- Embeds `EmailClassifier.classify_email`: lower-case the three fields,
then rules 1–4 (`important`), rules 5–6 (`normal`), rule 7 (domain
fallback). -/
def classify_email (cfg : ClassifierCfg) (d : EmailData) : String :=
  let subject := strLower d.subject
  let sender := strLower d.sender
  let content := strLower d.content
  if is_important_email cfg subject sender content then "important"
  else if is_normal_email cfg subject sender content then "normal"
  else classify_by_sender_domain sender

/-- A row of the `emails` table (`app/models.py`, class `Email`).  The three
audit timestamps (`processed_at`, `created_at`, `updated_at`) carry no
pipeline logic and are omitted from the embedding. -/
structure Email where
  id : Nat
  uid : String
  subject : String
  sender : String
  recipient : String
  date_received : Nat
  content : String
  classification : String
  auto_reply_sent : Bool
  notification_sent : Bool
deriving Repr, DecidableEq

/-- A row of the `processing_logs` table (`app/models.py`,
class `ProcessingLog`). -/
structure LogEntry where
  email_id : Nat
  action : String
  status : String
  message : String
deriving Repr, DecidableEq

/-- The durable store seen through one SQLAlchemy session: the two tables
plus the autoincrement counter handing out the next surrogate `id`. -/
structure DB where
  emails : List Email
  logs : List LogEntry
  nextId : Nat
deriving Repr, DecidableEq

/-- The uid column of the store, in row order. -/
def uids (db : DB) : List String :=
  db.emails.map (fun e => e.uid)

/-- Embeds `DatabaseManager.get_email_by_uid`:
`db.query(Email).filter(Email.uid == uid).first()`. -/
def get_email_by_uid (db : DB) (uid : String) : Option Email :=
  db.emails.find? (fun e => e.uid == uid)

/-- The `Email(...)` constructor call inside `save_email`: a fresh row with
the next surrogate id and both sent flags false. -/
def newRecord (db : DB) (d : EmailData) (classification : String) : Email :=
  { id := db.nextId, uid := d.uid, subject := d.subject, sender := d.sender,
    recipient := d.recipient, date_received := d.date_received,
    content := d.content, classification := classification,
    auto_reply_sent := false, notification_sent := false }

/-- Embeds `DatabaseManager.save_email`.  The duplicate check runs first and
returns the existing row untouched; otherwise a fresh row is created with
both sent flags false.  `ok` is the commit oracle: a failing commit takes
the `except` path — roll back and return `none`. -/
def save_email (ok : Bool) (db : DB) (d : EmailData) (classification : String) :
    DB × Option Email :=
  match get_email_by_uid db d.uid with
  | some existing => (db, some existing)
  | none =>
    if ok then
      ({ db with emails := db.emails ++ [newRecord db d classification],
                 nextId := db.nextId + 1 },
       some (newRecord db d classification))
    else (db, none)

/-- Embeds `DatabaseManager.update_email_status` at its two call sites:
look the row up by primary key `id` and apply the field update `f`.  `id` is
the unique primary key, so updating every row whose `id` matches is the
relational reading of mutating the row returned by `.first()`. -/
def update_email_fields (db : DB) (email_id : Nat) (f : Email → Email) : DB × Bool :=
  match db.emails.find? (fun e => e.id == email_id) with
  | none => (db, false)
  | some _ =>
    ({ db with emails := db.emails.map (fun e => if e.id == email_id then f e else e) },
     true)

/-- Embeds `DatabaseManager.mark_auto_reply_sent`
(`update_email_status(email_id, auto_reply_sent=True)`). -/
def mark_auto_reply_sent (db : DB) (email_id : Nat) : DB × Bool :=
  update_email_fields db email_id (fun e => { e with auto_reply_sent := true })

/-- Embeds `DatabaseManager.mark_notification_sent`
(`update_email_status(email_id, notification_sent=True)`). -/
def mark_notification_sent (db : DB) (email_id : Nat) : DB × Bool :=
  update_email_fields db email_id (fun e => { e with notification_sent := true })

/-- Embeds `DatabaseManager.log_processing_action`: append one audit row. -/
def log_processing_action (db : DB) (email_id : Nat) (action status message : String) : DB :=
  { db with logs := db.logs ++ [{ email_id := email_id, action := action,
                                  status := status, message := message }] }

/-- Embeds `DatabaseManager.cleanup_old_emails` as written.  The body's
first statement evaluates `timedelta(days=days)`, but `database.py` imports
only `datetime` from the `datetime` module, so the name `timedelta` is
unbound and the statement raises `NameError` before any query runs; the
`except Exception` handler logs, rolls back and returns 0.  The faithful
embedding therefore leaves the store unchanged and returns 0. -/
def cleanup_old_emails (db : DB) (_days : Nat) : DB × Nat :=
  (db, 0)

/-- Modelled from the spec: `deleteOlderThan(cutoff) -> deletedCount`
removes exactly the Records whose `date_received` is strictly before the
cutoff and returns their count — the behaviour `cleanup_old_emails`
documents (count the rows with `date_received < cutoff_date`, delete them,
return the count) but never reaches because of the missing import. -/
def deleteOlderThanSpec (db : DB) (cutoff : Nat) : DB × Nat :=
  (({ db with emails := db.emails.filter (fun e => !(e.date_received < cutoff)) }),
   (db.emails.filter (fun e => e.date_received < cutoff)).length)

/-- Embeds `EmailSender._format_reply_subject`. -/
def format_reply_subject (original_subject : String) : String :=
  if strStartsWith original_subject "Re: " then original_subject
  else "Re: " ++ original_subject

/-- Embeds `EmailFetcher.fetch_new_emails` from the point where the IMAP
search has produced `messages` (message ids, oldest-to-newest): the Python
truncation `messages[-max_emails_per_batch:]` keeps the last
`maxEmailsPerBatch` ids when `maxEmailsPerBatch ≥ 1`, and — by Python slice
semantics, since `-0 = 0` — the whole list when it is 0; each kept id is
then parsed, parse failures being skipped (`_parse_email` returning
`None`). -/
def fetch_new_emails (parse : Nat → Option EmailData) (maxEmailsPerBatch : Nat)
    (messages : List Nat) : List EmailData :=
  if messages.isEmpty then []
  else
    let truncated :=
      if maxEmailsPerBatch = 0 then messages
      else messages.drop (messages.length - maxEmailsPerBatch)
    truncated.filterMap parse

/-- The environment of one `SmartMailerWorker` processing cycle: the
classifier configuration and the `auto_reply_enabled` switch from
`app/config.py`, and the per-message outcome oracles for the three external
effects — `EmailSender.send_auto_reply` (SMTP),
`NotificationManager.notify_important_email` (Telegram), and the database
commit inside `save_email`. -/
structure Env where
  cfg : ClassifierCfg
  autoReplyEnabled : Bool
  sendReplyOk : EmailData → Bool
  notifyOk : EmailData → Bool
  persistOk : EmailData → Bool

/-- Embeds `SmartMailerWorker._process_normal_email`: no-op success when
auto-reply is disabled; otherwise send, and on success flip
`auto_reply_sent` and log `{auto_reply_sent, success}`, on failure log
`{auto_reply_sent, error}` and report failure. -/
def process_normal_email (env : Env) (db : DB) (record : Email) (d : EmailData) :
    DB × Bool :=
  if !env.autoReplyEnabled then (db, true)
  else if env.sendReplyOk d then
    let db1 := (mark_auto_reply_sent db record.id).1
    (log_processing_action db1 record.id "auto_reply_sent" "success"
       "Auto-reply sent successfully", true)
  else
    (log_processing_action db record.id "auto_reply_sent" "error"
       "Failed to send auto-reply", false)

/-- Embeds `SmartMailerWorker._process_important_email`: push the Telegram
notification, and on success flip `notification_sent` and log
`{notification_sent, success}`, on failure log `{notification_sent, error}`
and report failure. -/
def process_important_email (env : Env) (db : DB) (record : Email) (d : EmailData) :
    DB × Bool :=
  if env.notifyOk d then
    let db1 := (mark_notification_sent db record.id).1
    (log_processing_action db1 record.id "notification_sent" "success"
       "Telegram notification sent successfully", true)
  else
    (log_processing_action db record.id "notification_sent" "error"
       "Failed to send Telegram notification", false)

/-- Embeds `SmartMailerWorker._process_single_email`: skip (success) when
the uid already has a row; otherwise classify, save (failure aborts this
message only), log `{classified, success}`, then dispatch by category. -/
def process_single_email (env : Env) (db : DB) (d : EmailData) : DB × Bool :=
  match get_email_by_uid db d.uid with
  | some _ => (db, true)
  | none =>
    let classification := classify_email env.cfg d
    match save_email (env.persistOk d) db d classification with
    | (db1, none) => (db1, false)
    | (db1, some record) =>
      let db2 := log_processing_action db1 record.id "classified" "success"
                   ("Classified as " ++ classification)
      if classification == "normal" then process_normal_email env db2 record d
      else if classification == "important" then process_important_email env db2 record d
      else (db2, false)

/-- Embeds the per-message loop of `SmartMailerWorker.process_emails`: each
message is attempted in order inside its own `try`/`except`, so every
message yields exactly one Boolean outcome and the loop continues past
failures.  Returns the final store and the per-message outcome list (the
source counts the `true` outcomes as `processed_count`). -/
def runBatch (env : Env) : DB → List EmailData → DB × List Bool
  | db, [] => (db, [])
  | db, d :: rest =>
    let p := process_single_email env db d
    let q := runBatch env p.1 rest
    (q.1, p.2 :: q.2)

/-- Embeds the `/emails/{email_id}/resend-notification` endpoint of
`app/api.py`: 404 when the id is absent, 400 when the row is not classified
`important`; otherwise push the notification rebuilt from the stored row,
and on success flip `notification_sent` and log
`{notification_resent, success}`, on failure log
`{notification_resent, error}`. -/
def resend_notification (env : Env) (db : DB) (email_id : Nat) : DB × Bool :=
  match db.emails.find? (fun e => e.id == email_id) with
  | none => (db, false)
  | some em =>
    if em.classification != "important" then (db, false)
    else
      let d : EmailData :=
        { uid := em.uid, subject := em.subject, sender := em.sender,
          recipient := em.recipient, date_received := em.date_received,
          content := em.content }
      if env.notifyOk d then
        let db1 := (mark_notification_sent db email_id).1
        (log_processing_action db1 email_id "notification_resent" "success"
           "Notification resent via API", true)
      else
        (log_processing_action db email_id "notification_resent" "error"
           "Failed to resend notification", false)

/-- The store-mutating operations reachable from the pipeline and the API
that touch `Email` rows and their sent flags. -/
inductive Op where
  | processEmail (d : EmailData)
  | markAutoReply (email_id : Nat)
  | markNotification (email_id : Nat)
  | resend (email_id : Nat)
deriving Repr

/-- The store after one operation. -/
def applyOp (env : Env) (db : DB) : Op → DB
  | .processEmail d => (process_single_email env db d).1
  | .markAutoReply i => (mark_auto_reply_sent db i).1
  | .markNotification i => (mark_notification_sent db i).1
  | .resend i => (resend_notification env db i).1

/-- The store after a sequence of operations. -/
def applyOps (env : Env) (db : DB) : List Op → DB
  | [] => db
  | op :: rest => applyOps env (applyOp env db op) rest

/-- The primary-key invariant the SQL schema enforces on the `emails`
table: `id` values are pairwise distinct and below the autoincrement
counter. -/
def DBWF (db : DB) : Prop :=
  (db.emails.map (fun e => e.id)).Nodup ∧ ∀ e ∈ db.emails, e.id < db.nextId

/-- `db'` carries every row of `db` forward under the same `id`, with the
two sent flags only ever going `false → true`. -/
def FlagsMono (db db' : DB) : Prop :=
  ∀ e ∈ db.emails, ∃ e' ∈ db'.emails, e'.id = e.id ∧
    (e.auto_reply_sent = true → e'.auto_reply_sent = true) ∧
    (e.notification_sent = true → e'.notification_sent = true)

/-- A row update that keeps the primary key and never lowers a sent flag. -/
def FlagMonoUpdate (f : Email → Email) : Prop :=
  (∀ x, (f x).id = x.id) ∧
  (∀ x, x.auto_reply_sent = true → (f x).auto_reply_sent = true) ∧
  (∀ x, x.notification_sent = true → (f x).notification_sent = true)

/-- A fresh session over an empty store. -/
def emptyDB : DB := { emails := [], logs := [], nextId := 1 }

/-- A concrete stored row, used to instantiate the theorems below. -/
def exRecord : Email :=
  { id := 1, uid := "m1", subject := "hello", sender := "a@b.com",
    recipient := "me@x.com", date_received := 5, content := "hi",
    classification := "normal", auto_reply_sent := false,
    notification_sent := false }

/-- A store already holding `exRecord`. -/
def exDB : DB := { emails := [exRecord], logs := [], nextId := 2 }

/-- A fetched message with the same uid as `exRecord`. -/
def exData : EmailData :=
  { uid := "m1", subject := "hello again", sender := "a@b.com",
    recipient := "me@x.com", date_received := 6, content := "hi again" }

/-- A second fetched message, with a fresh uid. -/
def exData2 : EmailData :=
  { uid := "m2", subject := "ping", sender := "c@d.com",
    recipient := "me@x.com", date_received := 7, content := "pong" }

/-- A parse oracle that succeeds on every message id. -/
def cexParse : Nat → Option EmailData :=
  fun n => some { uid := Nat.repr n, subject := "", sender := "",
                  recipient := "", date_received := 0, content := "" }

/-- An empty rule configuration with both pattern matchers constantly
false. -/
def plainCfg : ClassifierCfg :=
  { important_keywords := [], important_senders := [], normal_keywords := [],
    urgentPattern := fun _ => false, normalPattern := fun _ => false }

/-- An environment whose database commits always fail. -/
def failEnv : Env :=
  { cfg := plainCfg, autoReplyEnabled := true, sendReplyOk := fun _ => true,
    notifyOk := fun _ => true, persistOk := fun _ => false }

/-- An environment where every external effect succeeds and auto-reply is
disabled. -/
def okEnv : Env :=
  { cfg := plainCfg, autoReplyEnabled := false, sendReplyOk := fun _ => true,
    notifyOk := fun _ => true, persistOk := fun _ => true }

/-- A stored row whose two sent flags are already true. -/
def sentRecord : Email :=
  { id := 1, uid := "s1", subject := "offer", sender := "hr@company.com",
    recipient := "me@x.com", date_received := 9, content := "text",
    classification := "important", auto_reply_sent := true,
    notification_sent := true }

/-- A store holding `sentRecord`. -/
def sentDB : DB := { emails := [sentRecord], logs := [], nextId := 2 }

/-- A store holding one row received at time 0, old relative to any
positive cutoff. -/
def oldDB : DB :=
  { emails := [{ id := 1, uid := "old1", subject := "stale", sender := "a@b.com",
                 recipient := "me@x.com", date_received := 0, content := "",
                 classification := "normal", auto_reply_sent := false,
                 notification_sent := false }],
    logs := [], nextId := 2 }

theorem strHeadMatch_self_append (p t : List Char) : strHeadMatch p (p ++ t) = true := by
  induction p with
  | nil => rfl
  | cons a as ih => simp [strHeadMatch, ih]

theorem toList_append (a b : String) : (a ++ b).toList = a.toList ++ b.toList :=
  String.data_append a b

theorem strStartsWith_same_append (p t : String) : strStartsWith (p ++ t) p = true := by
  rw [strStartsWith, toList_append]
  exact strHeadMatch_self_append p.toList t.toList

/-- C10: `_format_reply_subject` returns an already-`"Re: "`-prefixed
subject unchanged and prepends `"Re: "` otherwise; its output always starts
with `"Re: "`, so applying it to its own output changes nothing. -/
theorem format_reply_subject_spec (s : String) :
    (strStartsWith s "Re: " = true → format_reply_subject s = s) ∧
    (strStartsWith s "Re: " = false → format_reply_subject s = "Re: " ++ s) ∧
    strStartsWith (format_reply_subject s) "Re: " = true ∧
    format_reply_subject (format_reply_subject s) = format_reply_subject s := by
  by_cases h : strStartsWith s "Re: " = true
  · have h1 : format_reply_subject s = s := by simp [format_reply_subject, h]
    refine ⟨fun _ => h1, fun hf => ?_, ?_, ?_⟩
    · rw [h] at hf; cases hf
    · rw [h1]; exact h
    · rw [h1, h1]
  · have hf : strStartsWith s "Re: " = false := by
      revert h; cases strStartsWith s "Re: " <;> simp
    have h2 : format_reply_subject s = "Re: " ++ s := by
      simp [format_reply_subject, hf]
    refine ⟨fun ht => absurd ht h, fun _ => h2, ?_, ?_⟩
    · rw [h2]; exact strStartsWith_same_append "Re: " s
    · rw [h2]
      simp [format_reply_subject, strStartsWith_same_append "Re: " s]

theorem format_reply_subject_spec_witness :
    strStartsWith "hello" "Re: " = false ∧
    format_reply_subject "hello" = "Re: " ++ "hello" :=
  ⟨by decide, (format_reply_subject_spec "hello").2.1 (by decide)⟩

/-- C4: a message matching an important-sender rule is classified
`important` no matter which normal-keyword rules it also matches: rule 1
precedes rule 5 in `classify_email`. -/
theorem classify_email_priority (cfg : ClassifierCfg) (d : EmailData)
    (h1 : ∃ s ∈ cfg.important_senders, strContains s (strLower d.sender) = true)
    (_h5 : ∃ k ∈ cfg.normal_keywords,
        (strContains k (strLower d.subject) ||
         strContains k (strTake (strLower d.content) 200)) = true) :
    classify_email cfg d = "important" := by
  obtain ⟨s, hs, hmatch⟩ := h1
  have himp : is_important_email cfg (strLower d.subject) (strLower d.sender)
      (strLower d.content) = true := by
    unfold is_important_email
    have hany : cfg.important_senders.any (fun x => strContains x (strLower d.sender)) = true :=
      List.any_eq_true.mpr ⟨s, hs, hmatch⟩
    simp [hany]
  simp [classify_email, himp]

theorem classify_email_priority_witness :
    classify_email
      { plainCfg with important_senders := ["hr@"], normal_keywords := ["news"] }
      { uid := "w1", subject := "News flash", sender := "HR@company.com",
        recipient := "me@x.com", date_received := 0, content := "" }
      = "important" :=
  classify_email_priority _ _ (by decide) (by decide)

theorem classify_by_sender_domain_total (sender : String) :
    classify_by_sender_domain sender = "normal" ∨
    classify_by_sender_domain sender = "important" := by
  simp only [classify_by_sender_domain]
  split
  · split
    · split
      · exact Or.inr rfl
      · split
        · exact Or.inl rfl
        · exact Or.inl rfl
    · exact Or.inl rfl
  · exact Or.inl rfl

/-- C5: `classify_email` is total — on every input message (empty fields
included) it returns one of the two categories, for any configuration and
any behaviour of the abstracted pattern matchers. -/
theorem classify_email_total (cfg : ClassifierCfg) (d : EmailData) :
    classify_email cfg d = "normal" ∨ classify_email cfg d = "important" := by
  simp only [classify_email]
  split
  · exact Or.inr rfl
  · split
    · exact Or.inl rfl
    · exact classify_by_sender_domain_total (strLower d.sender)

theorem length_filterMap_of_isSome {α β : Type} (f : α → Option β) (l : List α)
    (h : ∀ x ∈ l, (f x).isSome = true) : (l.filterMap f).length = l.length := by
  induction l with
  | nil => rfl
  | cons a as ih =>
    have ha := h a (List.mem_cons_self a as)
    obtain ⟨b, hb⟩ := Option.isSome_iff_exists.mp ha
    rw [List.filterMap_cons, hb, List.length_cons,
        ih (fun x hx => h x (List.mem_cons_of_mem a hx))]
    rfl

/-- C6 counterexample: with `max_emails_per_batch = 0` and one fetched
message, the claim's conclusion fails — `messages[-0:]` is the whole list
in Python, so the pipeline receives 1 message, not 0. -/
theorem fetch_new_emails_maxzero_cex :
    0 < ([7] : List Nat).length ∧
    (fetch_new_emails cexParse 0 [7]).length ≠ 0 := by decide

/-- C6 (amended): for a positive configured maximum `k`, a fetch result of
more than `k` messages (oldest-to-newest, all parseable) is truncated to
exactly `k` messages, namely a suffix — the most-recently-received ones. -/
theorem fetch_new_emails_truncates (parse : Nat → Option EmailData) (k : Nat)
    (msgs : List Nat) (hk : 1 ≤ k) (hN : k < msgs.length)
    (hp : ∀ m ∈ msgs, (parse m).isSome = true) :
    (fetch_new_emails parse k msgs).length = k ∧
    ∃ t, t <:+ msgs ∧ t.length = k ∧
      fetch_new_emails parse k msgs = t.filterMap parse := by
  have hne : msgs.isEmpty = false := by
    cases msgs with
    | nil => simp at hN
    | cons a as => rfl
  have hk0 : ¬ k = 0 := by omega
  have hfe : fetch_new_emails parse k msgs
      = (msgs.drop (msgs.length - k)).filterMap parse := by
    unfold fetch_new_emails
    rw [hne]
    simp [hk0]
  have hlen : (msgs.drop (msgs.length - k)).length = k := by
    rw [List.length_drop]; omega
  have hmem : ∀ m ∈ msgs.drop (msgs.length - k), (parse m).isSome = true :=
    fun m hm => hp m (List.mem_of_mem_drop hm)
  refine ⟨?_, msgs.drop (msgs.length - k), List.drop_suffix _ _, hlen, hfe⟩
  rw [hfe, length_filterMap_of_isSome _ _ hmem, hlen]

theorem fetch_new_emails_truncates_witness :
    (fetch_new_emails cexParse 1 [3, 7]).length = 1 ∧
    ∃ t, t <:+ [3, 7] ∧ t.length = 1 ∧
      fetch_new_emails cexParse 1 [3, 7] = t.filterMap cexParse :=
  fetch_new_emails_truncates cexParse 1 [3, 7] (by decide) (by decide) (by decide)

/-- C7 (code bug): `cleanup_old_emails` never deletes anything — its body
raises `NameError` on the unimported `timedelta` and the handler returns 0 —
whereas the documented sweep (`deleteOlderThanSpec`) would delete exactly
the one stale row of `oldDB` and report count 1. -/
theorem cleanup_old_emails_noop :
    (∃ e ∈ oldDB.emails, e.date_received < 100) ∧
    cleanup_old_emails oldDB 30 = (oldDB, 0) ∧
    (deleteOlderThanSpec oldDB 100).2 = 1 ∧
    (deleteOlderThanSpec oldDB 100).1.emails = [] := by decide

theorem find?_of_append_of_none {α : Type} (p : α → Bool) (l1 l2 : List α)
    (h : l1.find? p = none) : (l1 ++ l2).find? p = l2.find? p := by
  rw [List.find?_append, h, Option.none_or]

theorem get_email_by_uid_append (db : DB) (r : Email) (u : String)
    (h : get_email_by_uid db u = none) :
    get_email_by_uid { db with emails := db.emails ++ [r], nextId := db.nextId + 1 } u
      = if r.uid == u then some r else none := by
  show (db.emails ++ [r]).find? (fun e => e.uid == u) = _
  rw [find?_of_append_of_none _ _ _ h]
  cases hru : r.uid == u <;> simp [List.find?, hru]

/-- C9: a `save_email` call whose uid is already stored is a pure no-op on
the store, for every classification argument and commit outcome — it
returns the stored row, which indeed carries that uid. -/
theorem save_email_duplicate_frame (db : DB) (d : EmailData) (cls : String)
    (ok : Bool) (r : Email) (h : get_email_by_uid db d.uid = some r) :
    save_email ok db d cls = (db, some r) ∧ r ∈ db.emails ∧ r.uid = d.uid := by
  refine ⟨by simp [save_email, h], List.mem_of_find?_eq_some h, ?_⟩
  have hp := List.find?_some h
  exact beq_iff_eq.mp hp

theorem save_email_duplicate_frame_witness :
    save_email false exDB exData "important" = (exDB, some exRecord) ∧
    exRecord ∈ exDB.emails ∧ exRecord.uid = exData.uid :=
  save_email_duplicate_frame exDB exData "important" false exRecord (by decide)

/-- C2 counterexample: with uid `"m1"` already stored, a second
`save_email` call for the same uid does not fail — it returns the existing
row (`some exRecord`), not the failure value `none`, even when asked to
store a different classification. -/
theorem save_email_duplicate_cex :
    (get_email_by_uid exDB "m1").isSome = true ∧
    (save_email true exDB exData "important").2 ≠ none ∧
    (save_email true exDB exData "important").2 = some exRecord := by decide

/-- C2 (amended): a second `save_email` call for an already-stored uid
never overwrites and never creates: the store is left exactly as the first
call left it and the first call's row is returned again — but the call
reports the existing row as a success rather than failing with a
uniqueness violation. -/
theorem save_email_no_overwrite (db : DB) (d : EmailData) (cls cls' : String)
    (ok : Bool) (h : get_email_by_uid db d.uid = none) :
    save_email ok (save_email true db d cls).1 d cls' = save_email true db d cls ∧
    (save_email true db d cls).2 ≠ none := by
  have h1 : save_email true db d cls =
      ({ db with emails := db.emails ++ [newRecord db d cls],
                 nextId := db.nextId + 1 },
       some (newRecord db d cls)) := by
    simp [save_email, h]
  constructor
  · rw [h1]
    have h2 := get_email_by_uid_append db (newRecord db d cls) d.uid h
    have hru : (newRecord db d cls).uid = d.uid := rfl
    rw [hru] at h2
    simp only [beq_self_eq_true, if_true] at h2
    simp [save_email, h2]
  · rw [h1]
    simp

theorem save_email_no_overwrite_witness :
    save_email false (save_email true emptyDB exData "normal").1 exData "important"
      = save_email true emptyDB exData "normal" ∧
    (save_email true emptyDB exData "normal").2 ≠ none :=
  save_email_no_overwrite emptyDB exData "normal" "important" false (by decide)

theorem get_email_by_uid_eq_none_iff (db : DB) (u : String) :
    get_email_by_uid db u = none ↔ u ∉ uids db := by
  rw [get_email_by_uid, List.find?_eq_none, uids]
  constructor
  · intro h hm
    obtain ⟨e, he, heq⟩ := List.mem_map.mp hm
    exact h e he (by simp [heq])
  · intro h e he hbe
    exact h (List.mem_map.mpr ⟨e, he, beq_iff_eq.mp hbe⟩)

theorem get_email_by_uid_some_of_mem (db : DB) (u : String) (h : u ∈ uids db) :
    ∃ r, get_email_by_uid db u = some r := by
  cases hg : get_email_by_uid db u with
  | some r => exact ⟨r, rfl⟩
  | none => exact absurd h ((get_email_by_uid_eq_none_iff db u).mp hg)

theorem uids_log_processing_action (db : DB) (i : Nat) (a s m : String) :
    uids (log_processing_action db i a s m) = uids db := rfl

theorem uids_update_email_fields (db : DB) (i : Nat) (f : Email → Email)
    (hf : ∀ e, (f e).uid = e.uid) :
    uids (update_email_fields db i f).1 = uids db := by
  unfold update_email_fields
  split
  · rfl
  · simp only [uids, List.map_map]
    exact List.map_congr_left (fun e _ => by
      by_cases h : (e.id == i) = true <;> simp [Function.comp, h, hf])

theorem uids_mark_auto_reply_sent (db : DB) (i : Nat) :
    uids (mark_auto_reply_sent db i).1 = uids db :=
  uids_update_email_fields db i _ (fun _ => rfl)

theorem uids_mark_notification_sent (db : DB) (i : Nat) :
    uids (mark_notification_sent db i).1 = uids db :=
  uids_update_email_fields db i _ (fun _ => rfl)

theorem uids_process_normal_email (env : Env) (db : DB) (r : Email) (d : EmailData) :
    uids (process_normal_email env db r d).1 = uids db := by
  unfold process_normal_email
  split
  · rfl
  · split
    · show uids (log_processing_action (mark_auto_reply_sent db r.id).1 _ _ _ _) = uids db
      rw [uids_log_processing_action, uids_mark_auto_reply_sent]
    · rfl

theorem uids_process_important_email (env : Env) (db : DB) (r : Email) (d : EmailData) :
    uids (process_important_email env db r d).1 = uids db := by
  unfold process_important_email
  split
  · show uids (log_processing_action (mark_notification_sent db r.id).1 _ _ _ _) = uids db
    rw [uids_log_processing_action, uids_mark_notification_sent]
  · rfl

theorem process_single_email_skip (env : Env) (db : DB) (d : EmailData)
    (h : d.uid ∈ uids db) :
    process_single_email env db d = (db, true) := by
  obtain ⟨r, hr⟩ := get_email_by_uid_some_of_mem db d.uid h
  simp [process_single_email, hr]

theorem process_single_email_persist_fail (env : Env) (db : DB) (d : EmailData)
    (hm : d.uid ∉ uids db) (hpf : env.persistOk d = false) :
    process_single_email env db d = (db, false) := by
  have hn : get_email_by_uid db d.uid = none :=
    (get_email_by_uid_eq_none_iff db d.uid).mpr hm
  simp [process_single_email, hn, save_email, hpf]

theorem uids_process_single_email_created (env : Env) (db : DB) (d : EmailData)
    (hm : d.uid ∉ uids db) (hok : env.persistOk d = true) :
    uids (process_single_email env db d).1 = uids db ++ [d.uid] := by
  have hn : get_email_by_uid db d.uid = none :=
    (get_email_by_uid_eq_none_iff db d.uid).mpr hm
  have hdb1 : uids { db with
                     emails := db.emails ++ [newRecord db d (classify_email env.cfg d)],
                     nextId := db.nextId + 1 } = uids db ++ [d.uid] := by
    simp [uids, List.map_append, newRecord]
  simp only [process_single_email, hn, save_email, hok, if_true]
  split
  · rw [show uids (process_normal_email env _ _ d).1 = _ from
      uids_process_normal_email env _ _ d]
    exact hdb1
  · split
    · rw [show uids (process_important_email env _ _ d).1 = _ from
        uids_process_important_email env _ _ d]
      exact hdb1
    · exact hdb1

theorem uids_runBatch_creates (env : Env) (batch : List EmailData) (db : DB)
    (hok : ∀ d ∈ batch, env.persistOk d = true) (hnd : (uids db).Nodup) :
    (uids (runBatch env db batch).1).Nodup ∧
    (∀ u ∈ uids db, u ∈ uids (runBatch env db batch).1) ∧
    (∀ d ∈ batch, d.uid ∈ uids (runBatch env db batch).1) := by
  induction batch generalizing db with
  | nil => exact ⟨hnd, fun u hu => hu, by simp⟩
  | cons a as ih =>
    have hok' : ∀ d ∈ as, env.persistOk d = true :=
      fun d hd => hok d (List.mem_cons_of_mem a hd)
    by_cases hm : a.uid ∈ uids db
    · have hskip := process_single_email_skip env db a hm
      have hrw : (runBatch env db (a :: as)).1 = (runBatch env db as).1 := by
        simp [runBatch, hskip]
      obtain ⟨h1, h2, h3⟩ := ih db hok' hnd
      refine ⟨by rw [hrw]; exact h1, fun u hu => by rw [hrw]; exact h2 u hu, ?_⟩
      intro d hd
      rcases List.mem_cons.mp hd with hda | hdas
      · subst hda; rw [hrw]; exact h2 _ hm
      · rw [hrw]; exact h3 d hdas
    · have hcr := uids_process_single_email_created env db a hm
        (hok a (List.mem_cons_self a as))
      have hnd' : (uids (process_single_email env db a).1).Nodup := by
        rw [hcr]
        simp [List.nodup_append, hnd, hm]
      have hrw : (runBatch env db (a :: as)).1
          = (runBatch env (process_single_email env db a).1 as).1 := by
        simp [runBatch]
      obtain ⟨h1, h2, h3⟩ := ih (process_single_email env db a).1 hok' hnd'
      refine ⟨by rw [hrw]; exact h1, ?_, ?_⟩
      · intro u hu
        rw [hrw]
        exact h2 u (by rw [hcr]; exact List.mem_append_left _ hu)
      · intro d hd
        rcases List.mem_cons.mp hd with hda | hdas
        · subst hda
          rw [hrw]
          exact h2 _ (by rw [hcr]; exact List.mem_append_right _ (List.mem_singleton.mpr rfl))
        · rw [hrw]; exact h3 d hdas

theorem runBatch_skips (env : Env) (batch : List EmailData) (db : DB)
    (h : ∀ d ∈ batch, d.uid ∈ uids db) :
    runBatch env db batch = (db, List.replicate batch.length true) := by
  induction batch with
  | nil => rfl
  | cons a as ih =>
    have ha := process_single_email_skip env db a (h a (List.mem_cons_self a as))
    have has := ih (fun d hd => h d (List.mem_cons_of_mem a hd))
    simp [runBatch, ha, has, List.replicate_succ]

theorem runBatch_length (env : Env) (db : DB) (batch : List EmailData) :
    (runBatch env db batch).2.length = batch.length := by
  induction batch generalizing db with
  | nil => rfl
  | cons a as ih => simp [runBatch, ih]

/-- C1: over an unchanged batch whose commits succeed, starting from a
store with unique uids, the first run leaves exactly one stored Record per
message uid, and the second run is a pure no-op on the store in which every
message's outcome is the skip counted as success. -/
theorem pipeline_idempotent (env : Env) (db0 : DB) (batch : List EmailData)
    (hok : ∀ d ∈ batch, env.persistOk d = true)
    (hnd : (uids db0).Nodup) :
    (∀ d ∈ batch, (uids (runBatch env db0 batch).1).count d.uid = 1) ∧
    runBatch env (runBatch env db0 batch).1 batch =
      ((runBatch env db0 batch).1, List.replicate batch.length true) := by
  obtain ⟨hnd1, _, hmem⟩ := uids_runBatch_creates env batch db0 hok hnd
  exact ⟨fun d hd => List.count_eq_one_of_mem hnd1 (hmem d hd),
         runBatch_skips env batch _ (fun d hd => hmem d hd)⟩

theorem pipeline_idempotent_witness :
    (∀ d ∈ [exData, exData2],
       (uids (runBatch okEnv emptyDB [exData, exData2]).1).count d.uid = 1) ∧
    runBatch okEnv (runBatch okEnv emptyDB [exData, exData2]).1 [exData, exData2] =
      ((runBatch okEnv emptyDB [exData, exData2]).1,
       List.replicate ([exData, exData2] : List EmailData).length true) :=
  pipeline_idempotent okEnv emptyDB [exData, exData2] (by decide) (by decide)

theorem runBatch_append (env : Env) (db : DB) (l1 l2 : List EmailData) :
    runBatch env db (l1 ++ l2) =
      ((runBatch env (runBatch env db l1).1 l2).1,
       (runBatch env db l1).2 ++ (runBatch env (runBatch env db l1).1 l2).2) := by
  induction l1 generalizing db with
  | nil => simp [runBatch]
  | cons a as ih => simp [runBatch, ih]

/-- C3: failure isolation — even when the message at position `i` of a
batch fails (here: its per-message processing reports failure, e.g. a
persistence failure or an action-dispatch error), the loop still yields one
outcome per message of the whole batch, and in particular every message
after position `i` is attempted. -/
theorem batch_failure_isolation (env : Env) (db : DB) (pre : List EmailData)
    (d : EmailData) (post : List EmailData)
    (_hfail : (process_single_email env (runBatch env db pre).1 d).2 = false) :
    (runBatch env db (pre ++ d :: post)).2.length = pre.length + 1 + post.length ∧
    (runBatch env (process_single_email env (runBatch env db pre).1 d).1 post).2.length
      = post.length := by
  constructor
  · rw [runBatch_length]
    simp [List.length_append]
    omega
  · exact runBatch_length env _ post

theorem batch_failure_isolation_witness :
    (runBatch failEnv emptyDB ([] ++ exData :: [exData2])).2.length = 0 + 1 + 1 ∧
    (runBatch failEnv (process_single_email failEnv (runBatch failEnv emptyDB []).1 exData).1
       [exData2]).2.length = 1 :=
  batch_failure_isolation failEnv emptyDB [] exData [exData2] (by decide)

theorem flagsMono_refl (db : DB) : FlagsMono db db :=
  fun e he => ⟨e, he, rfl, fun x => x, fun x => x⟩

theorem flagsMono_trans {d1 d2 d3 : DB}
    (h12 : FlagsMono d1 d2) (h23 : FlagsMono d2 d3) : FlagsMono d1 d3 := by
  intro e he
  obtain ⟨e2, he2, hid2, hA2, hN2⟩ := h12 e he
  obtain ⟨e3, he3, hid3, hA3, hN3⟩ := h23 e2 he2
  exact ⟨e3, he3, hid3.trans hid2, fun h => hA3 (hA2 h), fun h => hN3 (hN2 h)⟩

theorem flagsMono_of_emails_eq {db db' : DB} (h : db'.emails = db.emails) :
    FlagsMono db db' := by
  intro e he
  exact ⟨e, by rw [h]; exact he, rfl, fun x => x, fun x => x⟩

theorem flagsMono_of_emails_append {db db' : DB} (l : List Email)
    (h : db'.emails = db.emails ++ l) : FlagsMono db db' := by
  intro e he
  exact ⟨e, by rw [h]; exact List.mem_append_left _ he, rfl, fun x => x, fun x => x⟩

theorem flagsMono_update_email_fields (db : DB) (i : Nat) (f : Email → Email)
    (hf : FlagMonoUpdate f) : FlagsMono db (update_email_fields db i f).1 := by
  unfold update_email_fields
  split
  · exact flagsMono_refl db
  · intro e he
    have hmem : (if e.id == i then f e else e) ∈
        db.emails.map (fun x => if x.id == i then f x else x) :=
      List.mem_map_of_mem _ he
    by_cases h : (e.id == i) = true
    · rw [if_pos h] at hmem
      exact ⟨f e, hmem, hf.1 e, hf.2.1 e, hf.2.2 e⟩
    · rw [if_neg h] at hmem
      exact ⟨e, hmem, rfl, fun x => x, fun x => x⟩

theorem flagMonoUpdate_auto : FlagMonoUpdate (fun e => { e with auto_reply_sent := true }) :=
  ⟨fun _ => rfl, fun _ _ => rfl, fun _ h => h⟩

theorem flagMonoUpdate_notif : FlagMonoUpdate (fun e => { e with notification_sent := true }) :=
  ⟨fun _ => rfl, fun _ h => h, fun _ _ => rfl⟩

theorem flagsMono_mark_auto (db : DB) (i : Nat) :
    FlagsMono db (mark_auto_reply_sent db i).1 :=
  flagsMono_update_email_fields db i _ flagMonoUpdate_auto

theorem flagsMono_mark_notif (db : DB) (i : Nat) :
    FlagsMono db (mark_notification_sent db i).1 :=
  flagsMono_update_email_fields db i _ flagMonoUpdate_notif

theorem flagsMono_log (db : DB) (i : Nat) (a s m : String) :
    FlagsMono db (log_processing_action db i a s m) :=
  flagsMono_of_emails_eq rfl

theorem flagsMono_save_email (ok : Bool) (db : DB) (d : EmailData) (cls : String) :
    FlagsMono db (save_email ok db d cls).1 := by
  unfold save_email
  split
  · exact flagsMono_refl db
  · split
    · exact flagsMono_of_emails_append _ rfl
    · exact flagsMono_refl db

theorem flagsMono_process_normal (env : Env) (db : DB) (r : Email) (d : EmailData) :
    FlagsMono db (process_normal_email env db r d).1 := by
  unfold process_normal_email
  split
  · exact flagsMono_refl db
  · split
    · exact flagsMono_trans (flagsMono_mark_auto db r.id) (flagsMono_log _ _ _ _ _)
    · exact flagsMono_log _ _ _ _ _

theorem flagsMono_process_important (env : Env) (db : DB) (r : Email) (d : EmailData) :
    FlagsMono db (process_important_email env db r d).1 := by
  unfold process_important_email
  split
  · exact flagsMono_trans (flagsMono_mark_notif db r.id) (flagsMono_log _ _ _ _ _)
  · exact flagsMono_log _ _ _ _ _

theorem flagsMono_process_single (env : Env) (db : DB) (d : EmailData) :
    FlagsMono db (process_single_email env db d).1 := by
  unfold process_single_email
  split
  · exact flagsMono_refl db
  · have h1 := flagsMono_save_email (env.persistOk d) db d (classify_email env.cfg d)
    dsimp only
    split
    · rename_i db1 heq
      rw [heq] at h1
      exact h1
    · rename_i db1 record heq
      rw [heq] at h1
      have h2 : FlagsMono db
          (log_processing_action db1 record.id "classified" "success"
            ("Classified as " ++ classify_email env.cfg d)) :=
        flagsMono_trans h1 (flagsMono_log _ _ _ _ _)
      split
      · exact flagsMono_trans h2 (flagsMono_process_normal env _ record d)
      · split
        · exact flagsMono_trans h2 (flagsMono_process_important env _ record d)
        · exact h2

theorem flagsMono_resend (env : Env) (db : DB) (i : Nat) :
    FlagsMono db (resend_notification env db i).1 := by
  unfold resend_notification
  split
  · exact flagsMono_refl db
  · split
    · exact flagsMono_refl db
    · dsimp only
      split
      · exact flagsMono_trans (flagsMono_mark_notif db i) (flagsMono_log _ _ _ _ _)
      · exact flagsMono_log _ _ _ _ _

theorem flagsMono_applyOp (env : Env) (db : DB) (op : Op) :
    FlagsMono db (applyOp env db op) := by
  cases op with
  | processEmail d => exact flagsMono_process_single env db d
  | markAutoReply i => exact flagsMono_mark_auto db i
  | markNotification i => exact flagsMono_mark_notif db i
  | resend i => exact flagsMono_resend env db i

theorem flagsMono_applyOps (env : Env) (ops : List Op) (db : DB) :
    FlagsMono db (applyOps env db ops) := by
  induction ops generalizing db with
  | nil => exact flagsMono_refl db
  | cons op rest ih =>
    exact flagsMono_trans (flagsMono_applyOp env db op) (ih (applyOp env db op))

theorem dbwf_update_email_fields (db : DB) (i : Nat) (f : Email → Email)
    (hid : ∀ x, (f x).id = x.id) (h : DBWF db) : DBWF (update_email_fields db i f).1 := by
  unfold update_email_fields
  split
  · exact h
  · have hids : db.emails.map ((fun e => e.id) ∘ (fun x => if x.id == i then f x else x))
        = db.emails.map (fun e => e.id) :=
      List.map_congr_left (fun e _ => by
        by_cases hx : (e.id == i) = true <;> simp [Function.comp, hx, hid])
    refine ⟨?_, ?_⟩
    · show ((db.emails.map fun x => if x.id == i then f x else x).map fun e => e.id).Nodup
      rw [List.map_map, hids]
      exact h.1
    · intro e he
      obtain ⟨x, hx, hxe⟩ := List.mem_map.mp he
      subst hxe
      show (if x.id == i then f x else x).id < db.nextId
      by_cases hxx : (x.id == i) = true
      · rw [if_pos hxx, hid x]
        exact h.2 x hx
      · rw [if_neg hxx]
        exact h.2 x hx

theorem dbwf_save_email (ok : Bool) (db : DB) (d : EmailData) (cls : String)
    (h : DBWF db) : DBWF (save_email ok db d cls).1 := by
  unfold save_email
  split
  · exact h
  · split
    · refine ⟨?_, ?_⟩
      · show ((db.emails ++ [newRecord db d cls]).map fun e => e.id).Nodup
        rw [List.map_append]
        rw [List.nodup_append]
        refine ⟨h.1, List.nodup_singleton _, ?_⟩
        intro x hx hx1
        obtain ⟨e, he, hee⟩ := List.mem_map.mp hx
        have hxn : x = (newRecord db d cls).id := by
          simpa using List.mem_singleton.mp hx1
        have hni : (newRecord db d cls).id = db.nextId := rfl
        rw [hni] at hxn
        rw [hxn] at hee
        have hlt := h.2 e he
        rw [hee] at hlt
        exact Nat.lt_irrefl _ hlt
      · intro e he
        rcases List.mem_append.mp he with h1 | h1
        · exact Nat.lt_succ_of_lt (h.2 e h1)
        · have heq : e = newRecord db d cls := List.mem_singleton.mp h1
          subst heq
          show db.nextId < db.nextId + 1
          exact Nat.lt_succ_self _
    · exact h

theorem dbwf_process_normal (env : Env) (db : DB) (r : Email) (d : EmailData)
    (h : DBWF db) : DBWF (process_normal_email env db r d).1 := by
  unfold process_normal_email
  split
  · exact h
  · split
    · exact dbwf_update_email_fields db r.id _ (fun _ => rfl) h
    · exact h

theorem dbwf_process_important (env : Env) (db : DB) (r : Email) (d : EmailData)
    (h : DBWF db) : DBWF (process_important_email env db r d).1 := by
  unfold process_important_email
  split
  · exact dbwf_update_email_fields db r.id _ (fun _ => rfl) h
  · exact h

theorem dbwf_process_single (env : Env) (db : DB) (d : EmailData)
    (h : DBWF db) : DBWF (process_single_email env db d).1 := by
  unfold process_single_email
  split
  · exact h
  · have h1 := dbwf_save_email (env.persistOk d) db d (classify_email env.cfg d) h
    dsimp only
    split
    · rename_i db1 heq
      rw [heq] at h1
      exact h1
    · rename_i db1 record heq
      rw [heq] at h1
      split
      · exact dbwf_process_normal env _ record d h1
      · split
        · exact dbwf_process_important env _ record d h1
        · exact h1

theorem dbwf_resend (env : Env) (db : DB) (i : Nat)
    (h : DBWF db) : DBWF (resend_notification env db i).1 := by
  unfold resend_notification
  split
  · exact h
  · split
    · exact h
    · dsimp only
      split
      · exact dbwf_update_email_fields db i _ (fun _ => rfl) h
      · exact h

theorem dbwf_applyOp (env : Env) (db : DB) (op : Op)
    (h : DBWF db) : DBWF (applyOp env db op) := by
  cases op with
  | processEmail d => exact dbwf_process_single env db d h
  | markAutoReply i => exact dbwf_update_email_fields db i _ (fun _ => rfl) h
  | markNotification i => exact dbwf_update_email_fields db i _ (fun _ => rfl) h
  | resend i => exact dbwf_resend env db i h

theorem dbwf_applyOps (env : Env) (ops : List Op) (db : DB)
    (h : DBWF db) : DBWF (applyOps env db ops) := by
  induction ops generalizing db with
  | nil => exact h
  | cons op rest ih => exact ih (applyOp env db op) (dbwf_applyOp env db op h)

/-- C8: the sent flags are monotonic — over any sequence of pipeline and
API operations (per-message processing, the two mark operations, the resend
endpoint) starting from a store satisfying the primary-key invariant, a row
whose `auto_reply_sent` (resp. `notification_sent`) flag is true keeps that
flag true in every later state of the row. -/
theorem sent_flags_monotonic (env : Env) (ops : List Op) (db : DB)
    (hwf : DBWF db) (e : Email) (he : e ∈ db.emails) :
    ∀ e' ∈ (applyOps env db ops).emails, e'.id = e.id →
      (e.auto_reply_sent = true → e'.auto_reply_sent = true) ∧
      (e.notification_sent = true → e'.notification_sent = true) := by
  obtain ⟨e2, he2, hid2, hA, hN⟩ := flagsMono_applyOps env ops db e he
  have hwf' := dbwf_applyOps env ops db hwf
  intro e' he' hid
  have heq : e' = e2 :=
    List.inj_on_of_nodup_map hwf'.1 he' he2 (by rw [hid, hid2])
  rw [heq]
  exact ⟨hA, hN⟩

theorem sent_flags_monotonic_witness :
    sentRecord.auto_reply_sent = true ∧ sentRecord.notification_sent = true :=
  ⟨(sent_flags_monotonic okEnv [Op.markAutoReply 1, Op.resend 1] sentDB
      ⟨by decide, by decide⟩ sentRecord (by decide) sentRecord (by decide)
      (by decide)).1 (by decide),
   (sent_flags_monotonic okEnv [Op.markAutoReply 1, Op.resend 1] sentDB
      ⟨by decide, by decide⟩ sentRecord (by decide) sentRecord (by decide)
      (by decide)).2 (by decide)⟩
